import Mathlib

/-!
Verification of the ai-demo-builder frontend against its specification.

The development shallowly embeds the relevant parts of the frontend source:
the REST client (frontend/src/services/api.js), the top-level step machine
(frontend/src/App.jsx), the GitHub URL form (Step1GitHubInput.jsx), the
upload view (Step2SuggestionsWithUpload) and the final-video view
(Step3FinalVideo).  JavaScript objects with possibly-missing fields are
embedded as structures of Option-typed fields; JavaScript string truthiness
(empty string is falsy) is made explicit; the stateful React components are
embedded as explicit step functions on state records, with the network
modelled as a stream or list of responses.
-/

namespace DemoBuilder

/-- Truthiness of an optional JavaScript string: undefined, null and the
empty string are falsy, every other string is truthy. -/
def truthyStr : Option String → Bool
  | none => false
  | some s => !(s = "")

/-- The JavaScript idiom "a || d" on an optional string: the default d is
used when the field is missing or is the (falsy) empty string. -/
def jsOrElse : Option String → String → String
  | none, d => d
  | some s, d => if s = "" then d else s

/-- Character-list test that the first list is a leading segment of the
second list. -/
def isPrefixList : List Char → List Char → Bool
  | [], _ => true
  | _ :: _, [] => false
  | a :: as, b :: bs => a = b && isPrefixList as bs

/-- Character-list substring containment, used to embed the JavaScript
String.prototype.includes method. -/
def containsSub : List Char → List Char → Bool
  | [], needle => needle.isEmpty
  | h :: t, needle => isPrefixList needle (h :: t) || containsSub t needle

/-- Embedding of the JavaScript expression s.includes(sub). -/
def strIncludes (s sub : String) : Bool := containsSub s.data sub.data

/-- Embedding of the JavaScript expression s.startsWith(p). -/
def strStarts (s p : String) : Bool := isPrefixList p.data s.data

/-- Embedding of the optional-chained call st?.includes(sub): an undefined
receiver yields undefined, which is falsy. -/
def optIncludes : Option String → String → Bool
  | none, _ => false
  | some s, sub => strIncludes s sub

/-- The error object nested inside a session status record
(statusResponse.error in Step3FinalVideo). -/
structure StatusError where
  message : Option String
deriving Repr, DecidableEq

/-- The result object nested inside a session status record
(statusResponse.result in Step3FinalVideo). -/
structure StatusResult where
  demo_url : Option String
  thumbnail_url : Option String
deriving Repr, DecidableEq

/-- The session status record returned by api.getSessionStatus, with the
fields read by the frontend.  Every field may be absent. -/
structure SessionStatus where
  status : Option String
  error_message : Option String
  demo_url : Option String
  thumbnail_url : Option String
  github_url : Option String
  suggestions_count : Option Nat
  error : Option StatusError
  result : Option StatusResult
deriving Repr, DecidableEq

/-- A session status record carrying only a status string. -/
def mkStatus (s : Option String) : SessionStatus :=
  ⟨s, none, none, none, none, none, none, none⟩

/-- The value returned by api.getFinalVideo on success. -/
structure FinalVideo where
  videoUrl : String
  thumbnailUrl : Option String
  status : Option String
deriving Repr, DecidableEq

/-- Embedding of api.getFinalVideo (api.js lines 248 to 266), applied to
the status record obtained from getSessionStatus: if status.demo_url is
truthy the result object is returned, otherwise the call rejects. -/
def getFinalVideo (st : SessionStatus) : Except String FinalVideo :=
  match st.demo_url with
  | some u =>
    if u = "" then Except.error "Final video not yet available"
    else Except.ok ⟨u, st.thumbnail_url, st.status⟩
  | none => Except.error "Final video not yet available"

/-- Embedding of the terminal-failure test of api.pollSessionStatus:
status.status is the string failed or the string error. -/
def failedOrError (st : SessionStatus) : Bool :=
  st.status = some "failed" || st.status = some "error"

/-- The loop body of api.pollSessionStatus (api.js lines 278 to 297),
embedded with the successive getSessionStatus responses as a stream and
the remaining attempts as fuel.  Note that the source compares the status
field against the string "completed". -/
def pollFrom (responses : Nat → SessionStatus) (attempt : Nat) :
    Nat → Except String SessionStatus
  | 0 => Except.error "Timeout waiting for video processing to complete"
  | remaining + 1 =>
    let st := responses attempt
    if st.status = some "completed" then Except.ok st
    else if failedOrError st then
      Except.error (jsOrElse st.error_message "Video processing failed")
    else pollFrom responses (attempt + 1) remaining

/-- Embedding of api.pollSessionStatus (api.js lines 271 to 300). -/
def pollSessionStatus (responses : Nat → SessionStatus)
    (maxAttempts : Nat) : Except String SessionStatus :=
  pollFrom responses 0 maxAttempts

/-- The default maxAttempts of api.pollSessionStatus. -/
def defaultMaxAttempts : Nat := 60

/-- Embedding of the step chosen by resumeSession in App.jsx (lines 44 to
56) from the status string of the resumed session. -/
def resumeStep (sessionStatus : Option String) : Nat :=
  if sessionStatus = some "ready" ∨ sessionStatus = some "uploading" then 2
  else if (sessionStatus = some "ready_for_processing" ∨
      sessionStatus = some "queued" ∨
      sessionStatus = some "processing" ∨
      sessionStatus = some "complete") ∨
      optIncludes sessionStatus "failed" = true then 3
  else 2

/-- A video suggestion as used by the upload view (sequence_number is the
field the components key on). -/
structure Suggestion where
  sequence_number : Nat
  title : Option String
deriving Repr, DecidableEq

/-- The suggestions rebuilt by resumeSession in App.jsx (lines 39 to 41)
from the suggestions_count field: a falsy count (absent or zero) yields the
empty list, otherwise placeholder records numbered 1 to n. -/
def resumeSuggestions (st : SessionStatus) : List Suggestion :=
  match st.suggestions_count with
  | some n => if n = 0 then [] else (List.range n).map (fun i => ⟨i + 1, none⟩)
  | none => []

/-- The payload shape validated by api.analyzeGitHub: only the github_data
field matters to the client-side checks; its contents stay opaque. -/
structure AnalysisPayload where
  github_data : Option String
deriving Repr, DecidableEq

/-- The body field of a Lambda-style response after the axios interceptor:
it may be absent, a JSON string that parses to a payload, a string that
fails to parse, or already an object. -/
inductive RespBody (α : Type) where
  | absent : RespBody α
  | strParsed : α → RespBody α
  | strBad : String → RespBody α
  | obj : α → RespBody α
deriving Repr, DecidableEq

/-- An analyze response: its own top-level fields plus an optional nested
body. -/
structure AnalyzeResponse where
  top : AnalysisPayload
  body : RespBody AnalysisPayload
deriving Repr, DecidableEq

/-- The body unwrapping of api.analyzeGitHub (api.js lines 63 to 75): a
string body that parses replaces the data, a string body that fails to
parse leaves the response itself as data, an object body replaces the
data, and a missing body leaves the response as data. -/
def unwrapAnalyze (r : AnalyzeResponse) : AnalysisPayload :=
  match r.body with
  | RespBody.strParsed d => d
  | RespBody.strBad _ => r.top
  | RespBody.obj d => d
  | RespBody.absent => r.top

/-- Embedding of api.analyzeGitHub (api.js lines 54 to 89), applied to the
interceptor-processed response of the analyze endpoint. -/
def analyzeGitHub (r : AnalyzeResponse) : Except String AnalysisPayload :=
  let data := unwrapAnalyze r
  if truthyStr data.github_data = false then
    Except.error "Invalid response: missing github_data"
  else Except.ok data

/-- The payload of the suggestions endpoint, with the fields read by
api.getSuggestions. -/
structure SuggestPayload where
  session_id : Option String
  project_name : Option String
  owner : Option String
  github_url : Option String
  videos : Option (List Suggestion)
  total_suggestions : Option Nat
  cached : Option Bool
deriving Repr, DecidableEq

/-- A suggestions response: top-level fields plus an optional nested
body. -/
structure SuggestResponse where
  top : SuggestPayload
  body : RespBody SuggestPayload
deriving Repr, DecidableEq

/-- The body unwrapping of api.getSuggestions (api.js lines 111 to 122),
identical in shape to the one in analyzeGitHub. -/
def unwrapSuggest (r : SuggestResponse) : SuggestPayload :=
  match r.body with
  | RespBody.strParsed d => d
  | RespBody.strBad _ => r.top
  | RespBody.obj d => d
  | RespBody.absent => r.top

/-- The object built by api.getSuggestions on success (api.js lines 131
to 143). -/
structure SuggestionsResult where
  sessionId : String
  projectName : Option String
  owner : Option String
  githubUrl : Option String
  suggestions : List Suggestion
  totalSuggestions : Option Nat
  cached : Bool
deriving Repr, DecidableEq

/-- Embedding of api.getSuggestions (api.js lines 97 to 148): the input
analysis data is validated, the response body is unwrapped, the session_id
is validated, and the result object is assembled with videos defaulting to
the empty list and cached defaulting to false. -/
def getSuggestions (analysisData : Option AnalysisPayload)
    (r : SuggestResponse) : Except String SuggestionsResult :=
  match analysisData with
  | none => Except.error "Invalid analysis data: missing github_data"
  | some a =>
    if truthyStr a.github_data = false then
      Except.error "Invalid analysis data: missing github_data"
    else
      let data := unwrapSuggest r
      match data.session_id with
      | none => Except.error "Invalid response: missing session_id"
      | some sid =>
        if sid = "" then Except.error "Invalid response: missing session_id"
        else Except.ok
          { sessionId := sid
            projectName := data.project_name
            owner := data.owner
            githubUrl := data.github_url
            suggestions := data.videos.getD []
            totalSuggestions := data.total_suggestions
            cached := data.cached.getD false }

/-- The state of the App component (App.jsx lines 8 to 13) together with
the stored session id in localStorage. -/
structure AppState where
  step : Nat
  sessionId : Option String
  githubUrl : String
  suggestions : List Suggestion
  storedSessionId : Option String
deriving Repr, DecidableEq

/-- The initial App state: step 1, no session. -/
def appInit : AppState := ⟨1, none, "", [], none⟩

/-- The events that drive the App component: a successful GitHub
submission (handleGitHubSubmit), completion of all uploads
(handleAllVideosUploaded), the start-over action (handleStartOver), the
back action of step 2, and the two outcomes of resumeSession. -/
inductive AppEvent where
  | githubSubmit (url : String) (res : SuggestionsResult)
  | allVideosUploaded
  | startOver
  | backToStep1
  | resumeOk (st : SessionStatus) (sid : String)
  | resumeFail
deriving Repr, DecidableEq

/-- One transition of the App component (App.jsx lines 28 to 97). -/
def appStep (s : AppState) (e : AppEvent) : AppState :=
  match e with
  | AppEvent.githubSubmit url res =>
    { s with
      githubUrl := url
      sessionId := some res.sessionId
      suggestions := res.suggestions
      storedSessionId := some res.sessionId
      step := 2 }
  | AppEvent.allVideosUploaded => { s with step := 3 }
  | AppEvent.startOver =>
    { s with
      step := 1
      sessionId := none
      githubUrl := ""
      suggestions := []
      storedSessionId := none }
  | AppEvent.backToStep1 => { s with step := 1 }
  | AppEvent.resumeOk st sid =>
    { s with
      sessionId := some sid
      githubUrl := jsOrElse st.github_url ""
      suggestions := resumeSuggestions st
      step := resumeStep st.status }
  | AppEvent.resumeFail => { s with storedSessionId := none }

/-- Running the App machine over a list of events. -/
def appRun (s : AppState) : List AppEvent → AppState
  | [] => s
  | e :: es => appRun (appStep s e) es

/-- A file selected in the upload view, with the fields the validation
reads (ftype embeds the JavaScript file.type). -/
structure JsFile where
  ftype : String
  size : Nat
  name : String
deriving Repr, DecidableEq

/-- The size limit of handleFileSelect in Step2SuggestionsWithUpload. -/
def maxUploadBytes : Nat := 100 * 1024 * 1024

/-- What the file-selection handler decides to do with a chosen file. -/
inductive FileSelectAction where
  | noFile : FileSelectAction
  | recordError : Nat → String → FileSelectAction
  | callUploadVideo : JsFile → FileSelectAction
deriving Repr, DecidableEq

/-- Embedding of handleFileSelect in Step2SuggestionsWithUpload (part of
the upload view, lines 49 to 77): a missing file is ignored, a file whose
MIME type does not start with the video prefix or whose size exceeds the
limit records an error keyed by the suggestion index and returns early,
and only a file passing both checks is handed to uploadVideo. -/
def handleFileSelect (index : Nat) (file : Option JsFile) : FileSelectAction :=
  match file with
  | none => FileSelectAction.noFile
  | some f =>
    if strStarts f.ftype "video/" = false then
      FileSelectAction.recordError index "Please select a video file"
    else if f.size > maxUploadBytes then
      FileSelectAction.recordError index "File size must be less than 100MB"
    else FileSelectAction.callUploadVideo f

/-- The observable side of the upload view relevant to file selection: the
per-clip error messages and the map of uploaded videos. -/
structure UploadViewState where
  errors : List (Nat × String)
  uploadedVideos : List (Nat × String)
deriving Repr, DecidableEq

/-- The effect of one file selection on the upload view, paired with the
file forwarded to uploadVideo (none when no upload is attempted: no
presigned-URL request and no PUT is issued on that path). -/
def selectStep (st : UploadViewState) (index : Nat) (file : Option JsFile) :
    UploadViewState × Option JsFile :=
  match handleFileSelect index file with
  | FileSelectAction.noFile => (st, none)
  | FileSelectAction.recordError k m => ({ st with errors := (k, m) :: st.errors }, none)
  | FileSelectAction.callUploadVideo f => (st, some f)

/-- The progress computation of Step2SuggestionsWithUpload (line 202 of
the upload view), over the rationals: uploadedCount divided by the number
of suggestions, times 100, guarded to 0 when there are no suggestions. -/
def progressCalc (uploadedCount suggestionsLen : Nat) : ℚ :=
  if 0 < suggestionsLen then
    ((uploadedCount : ℚ) / (suggestionsLen : ℚ)) * 100
  else 0

/-- The two top-level renderings of the upload view. -/
inductive Step2View where
  | noSuggestionsFallback : Step2View
  | uploadList : Step2View
deriving Repr, DecidableEq

/-- The top-level render decision of Step2SuggestionsWithUpload (lines 204
to 214 of the upload view): an empty suggestions list renders the
fallback. -/
def step2Render (suggestions : List Suggestion) : Step2View :=
  if suggestions.length = 0 then Step2View.noSuggestionsFallback
  else Step2View.uploadList

/-- The state of the Step3FinalVideo component (final-video view, lines 6
to 11): whether its polling interval has been cleared, the last status
string and status record, the error message, and the failed-poll
counter. -/
structure Step3State where
  stopped : Bool
  status : Option String
  statusData : Option SessionStatus
  errMsg : Option String
  pollingCount : Nat
deriving Repr, DecidableEq

/-- The initial Step3FinalVideo state: status is the literal string
processing, no error, counter zero, interval running. -/
def step3Init : Step3State := ⟨false, some "processing", none, none, 0⟩

/-- The outcome of one getSessionStatus call made by a poller: a status
record, or a thrown error. -/
inductive PollOutcome where
  | ok : SessionStatus → PollOutcome
  | fetchFail : PollOutcome
deriving Repr, DecidableEq

/-- The failure message displayed by Step3FinalVideo (line 28 of the
final-video view): statusResponse.error?.message with the fallback. -/
def step3ErrText (st : SessionStatus) : String :=
  match st.error with
  | some e => jsOrElse e.message "Video processing failed"
  | none => "Video processing failed"

/-- One execution of pollStatus in Step3FinalVideo (final-video view,
lines 15 to 41): a successful fetch stores the record and its status and
clears the interval on the status complete or on any status containing the
substring failed (recording the failure message); a thrown fetch
increments the counter and, when the counter already reads at least 60,
clears the interval with a timeout error. -/
def step3Poll (s : Step3State) (o : PollOutcome) : Step3State :=
  match o with
  | PollOutcome.ok resp =>
    let s1 := { s with statusData := some resp, status := resp.status }
    if resp.status = some "complete" then { s1 with stopped := true }
    else if optIncludes resp.status "failed" = true then
      { s1 with errMsg := some (step3ErrText resp), stopped := true }
    else s1
  | PollOutcome.fetchFail =>
    let s1 := { s with pollingCount := s.pollingCount + 1 }
    if s.pollingCount ≥ 60 then
      { s1 with stopped := true, errMsg := some "Timeout waiting for video processing" }
    else s1

/-- Running the Step3 poller over a list of fetch outcomes: once the
interval is cleared no further outcome is consumed. -/
def step3Run (s : Step3State) : List PollOutcome → Step3State
  | [] => s
  | o :: os => if s.stopped then s else step3Run (step3Poll s o) os

/-- The number of status requests the Step3 poller issues while consuming
a list of outcomes: one per tick as long as the interval has not been
cleared. -/
def step3Polls (s : Step3State) : List PollOutcome → Nat
  | [] => 0
  | o :: os => if s.stopped then 0 else 1 + step3Polls (step3Poll s o) os

/-- The interval of the Step3 poller, in milliseconds (final-video view,
line 44). -/
def step3PollIntervalMs : Nat := 5000

/-- A list of n thrown-fetch outcomes. -/
def failList (n : Nat) : List PollOutcome := List.replicate n PollOutcome.fetchFail

/-- A list of n successful fetches whose status is the string queued. -/
def queuedList (n : Nat) : List PollOutcome :=
  List.replicate n (PollOutcome.ok (mkStatus (some "queued")))

/-- Truthiness of statusData?.result?.demo_url in the render condition of
the finished-video view. -/
def truthyResultUrl (d : Option SessionStatus) : Bool :=
  match d with
  | some st =>
    match st.result with
    | some r => truthyStr r.demo_url
    | none => false
  | none => false

/-- The five renderings of Step3FinalVideo. -/
inductive Step3View where
  | generatePrompt : Step3View
  | processingView : Step3View
  | finishedView : Step3View
  | failureView : Step3View
  | loadingView : Step3View
deriving Repr, DecidableEq

/-- The render cascade of Step3FinalVideo (final-video view, lines 88 to
303), in source order: the generate prompt, the processing view for the
five in-flight statuses, the finished view for status complete with a
demo url, the failure view for a status containing failed or a recorded
error, and the loading fallback. -/
def step3Render (st : Step3State) : Step3View :=
  if st.status = some "ready_for_processing" ∨ st.status = some "uploading" then
    Step3View.generatePrompt
  else if st.status = some "queued" ∨ st.status = some "slides_ready" ∨
      st.status = some "stitching" ∨ st.status = some "stitched" ∨
      st.status = some "optimizing" then
    Step3View.processingView
  else if st.status = some "complete" ∧ truthyResultUrl st.statusData = true then
    Step3View.finishedView
  else if optIncludes st.status "failed" = true ∨ st.errMsg ≠ none then
    Step3View.failureView
  else Step3View.loadingView

/-- The state of the per-upload confirmation poller of the upload view
(lines 172 to 178): its counter and whether its interval is still
running. -/
structure UploadPollState where
  pollCount : Nat
  active : Bool
deriving Repr, DecidableEq

/-- The initial upload-poller state. -/
def uploadPollInit : UploadPollState := ⟨0, true⟩

/-- One interval tick of the upload-view poller: while active it polls
once, increments the counter, and clears the interval when the counter
reaches 15. -/
def uploadPollTick (s : UploadPollState) : UploadPollState :=
  if s.active = false then s
  else
    let c := s.pollCount + 1
    ⟨c, decide (c < 15)⟩

/-- The upload-poller state after n interval ticks. -/
def uploadRun : Nat → UploadPollState
  | 0 => uploadPollInit
  | n + 1 => uploadPollTick (uploadRun n)

/-- The number of status requests issued by the upload-view poller in its
first n interval ticks. -/
def uploadPollsIssued : Nat → Nat
  | 0 => 0
  | n + 1 => uploadPollsIssued n + (if (uploadRun n).active then 1 else 0)

/-- The interval of the upload-view poller, in milliseconds (upload view,
line 178). -/
def uploadPollIntervalMs : Nat := 2000

/-- The character class of the owner and repository segments of the
GitHub URL pattern in Step1GitHubInput (ASCII letters, digits, underscore,
dot, hyphen). -/
def urlChar (c : Char) : Bool :=
  c.isAlpha || c.isDigit || c = '_' || c = '.' || c = '-'

/-- Strips a literal pattern from the front of a character list, returning
the remainder on success. -/
def stripPre : List Char → List Char → Option (List Char)
  | [], s => some s
  | _ :: _, [] => none
  | p :: ps, c :: cs => if p = c then stripPre ps cs else none

/-- The optional s of the scheme part https? of the pattern: it is
consumed exactly when the next character is the letter s, which is
unambiguous because the character that must follow the scheme is the
colon. -/
def dropOptS : List Char → List Char
  | [] => []
  | c :: rest => if c = 's' then rest else c :: rest

/-- The optional www dot of the pattern: it is consumed exactly when it
is present, which is unambiguous because the host must otherwise start
with the letter g. -/
def dropOptWww (s : List Char) : List Char :=
  match stripPre "www.".data s with
  | some rest => rest
  | none => s

/-- Splits a character list into its longest leading run of segment-class
characters and the remainder. -/
def segSplit (s : List Char) : List Char × List Char :=
  (s.takeWhile urlChar, s.dropWhile urlChar)

/-- The end of the pattern after the repository segment: the end of the
string or a single trailing slash. -/
def repoTail : List Char → Bool
  | [] => true
  | [c] => c = '/'
  | _ => false

/-- The owner slash repository part of the pattern, after the host: a
nonempty segment, a slash, a nonempty segment, and the optional trailing
slash.  Greedy segment reading is faithful to the regular expression
because the segment class excludes the slash. -/
def hostTail (r4 : List Char) : Bool :=
  match segSplit r4 with
  | ([], _) => false
  | (_ :: _, '/' :: r5) =>
    match segSplit r5 with
    | ([], _) => false
    | (_ :: _, rest5) => repoTail rest5
  | (_ :: _, _) => false

/-- Embedding of validateGitHubUrl in Step1GitHubInput (lines 13 to 16):
an anchored match of the pattern consisting of the scheme http with an
optional s, the separator, an optional www dot, the literal github dot
com slash, a nonempty owner segment, a slash, a nonempty repository
segment, and an optional trailing slash.  The pattern is deterministic,
so the regular-expression match is embedded as a single left-to-right
pass; the equivalence with the declarative reading of the pattern is
proved below. -/
def validateGitHubUrl (url : String) : Bool :=
  (((stripPre "http".data url.data).bind
      (fun r0 => stripPre "://".data (dropOptS r0))).bind
      (fun r2 => stripPre "github.com/".data (dropOptWww r2))).elim
    false hostTail

/-- The GitHub URL pattern of the claim, stated declaratively: the URL
decomposes into the scheme with optional s, the separator, an optional www
dot, the github host, a slash, a nonempty owner over the segment class, a
slash, a nonempty repository over the segment class, and an optional
trailing slash. -/
def githubUrlSpec (url : String) : Prop :=
  ∃ (sec www slash : Bool) (owner repo : List Char),
    owner ≠ [] ∧ repo ≠ [] ∧
    owner.all urlChar = true ∧ repo.all urlChar = true ∧
    url.data = "http".data ++ cond sec ['s'] [] ++ "://".data ++
      cond www "www.".data [] ++ "github.com/".data ++
      owner ++ '/' :: (repo ++ cond slash ['/'] [])

/-- Whitespace trimming as used by the submit handler (the JavaScript
trim method), embedded over the character list. -/
def jsTrim (s : String) : String :=
  ⟨((s.data.dropWhile Char.isWhitespace).reverse.dropWhile Char.isWhitespace).reverse⟩

/-- What the submit handler of Step1GitHubInput does with the input. -/
inductive SubmitAction where
  | showError : String → SubmitAction
  | callAnalyze : String → SubmitAction
deriving Repr, DecidableEq

/-- Embedding of handleSubmit in Step1GitHubInput (lines 19 to 31) up to
the first API call: an empty trimmed input and an input rejected by the
validator each set an error and return before any request; only a
validated input reaches api.analyzeGitHub. -/
def handleGitHubSubmit (url : String) : SubmitAction :=
  if jsTrim url = "" then SubmitAction.showError "Please enter a GitHub URL"
  else if validateGitHubUrl url = false then
    SubmitAction.showError "Please enter a valid GitHub repository URL"
  else SubmitAction.callAnalyze url

/-- C6: getFinalVideo returns a result exactly when the session status
record carries a demo_url: in that case it returns the video url, the
thumbnail url and the status; for every status record without a demo_url
it rejects with the message Final video not yet available and returns no
other result. -/
theorem getFinalVideo_spec (st : SessionStatus) :
    (∀ u, st.demo_url = some u → u ≠ "" →
      getFinalVideo st = Except.ok ⟨u, st.thumbnail_url, st.status⟩) ∧
    (st.demo_url = none →
      getFinalVideo st = Except.error "Final video not yet available") := by
  constructor
  · intro u hu hne
    simp [getFinalVideo, hu, hne]
  · intro h
    simp [getFinalVideo, h]

/-- Witness for C6 at two concrete status records. -/
theorem getFinalVideo_spec_witness :
    getFinalVideo (mkStatus none) = Except.error "Final video not yet available" ∧
    getFinalVideo ⟨some "complete", none, some "http://v", none, none, none, none, none⟩ =
      Except.ok ⟨"http://v", none, some "complete"⟩ := by
  constructor
  · exact (getFinalVideo_spec (mkStatus none)).2 rfl
  · exact (getFinalVideo_spec _).1 "http://v" rfl (by decide)

/-- C1: the claim says pollSessionStatus returns as soon as the polled
status equals the completion status complete.  The code compares against
the string completed instead, so on a session whose status is the
terminal status complete used everywhere else in the frontend the poller
never returns it and times out after the default 60 attempts; it would
return only on the string completed, which no other part of the system
produces.  The failed branch behaves as claimed. -/
theorem pollSessionStatus_completed_mismatch :
    pollSessionStatus (fun _ => mkStatus (some "complete")) defaultMaxAttempts =
      Except.error "Timeout waiting for video processing to complete" ∧
    pollSessionStatus (fun _ => mkStatus (some "completed")) defaultMaxAttempts =
      Except.ok (mkStatus (some "completed")) ∧
    pollSessionStatus (fun _ => mkStatus (some "failed")) defaultMaxAttempts =
      Except.error "Video processing failed" := by
  refine ⟨?_, ?_, ?_⟩ <;> rfl

/-- C2: resuming a session routes the interface by the session status
string: ready and uploading go to step 2; ready_for_processing, queued,
processing, complete, and any string containing the substring failed go
to step 3; every other string goes to step 2. -/
theorem resume_routing (s : String) :
    ((s = "ready" ∨ s = "uploading") → resumeStep (some s) = 2) ∧
    ((s = "ready_for_processing" ∨ s = "queued" ∨ s = "processing" ∨ s = "complete" ∨
        strIncludes s "failed" = true) → resumeStep (some s) = 3) ∧
    (¬(s = "ready" ∨ s = "uploading") →
      ¬(s = "ready_for_processing" ∨ s = "queued" ∨ s = "processing" ∨ s = "complete" ∨
        strIncludes s "failed" = true) →
      resumeStep (some s) = 2) := by
  refine ⟨?_, ?_, ?_⟩
  · rintro (rfl | rfl) <;> decide
  · rintro (rfl | rfl | rfl | rfl | hf)
    · decide
    · decide
    · decide
    · decide
    · have h1 : ¬(some s = some "ready" ∨ some s = some "uploading") := by
        rintro (h | h) <;> (injection h with h2; subst h2; exact absurd hf (by decide))
      have h2 : (some s = some "ready_for_processing" ∨ some s = some "queued" ∨
          some s = some "processing" ∨ some s = some "complete") ∨
          optIncludes (some s) "failed" = true :=
        Or.inr (by simpa [optIncludes] using hf)
      unfold resumeStep
      rw [if_neg h1, if_pos h2]
  · intro h1 h2
    have hc1 : ¬(some s = some "ready" ∨ some s = some "uploading") := by
      rintro (h | h) <;> (injection h with h3; exact h1 (by simp [h3]))
    have hc2 : ¬((some s = some "ready_for_processing" ∨ some s = some "queued" ∨
        some s = some "processing" ∨ some s = some "complete") ∨
        optIncludes (some s) "failed" = true) := by
      rintro (h | h)
      · rcases h with h | h | h | h <;> (injection h with h3; exact h2 (by simp [h3]))
      · exact h2 (Or.inr (Or.inr (Or.inr (Or.inr (by simpa [optIncludes] using h)))))
    unfold resumeStep
    rw [if_neg hc1, if_neg hc2]

/-- Witness for C2 at one status of each routing class. -/
theorem resume_routing_witness :
    resumeStep (some "ready") = 2 ∧
    resumeStep (some "stitching_failed") = 3 ∧
    resumeStep (some "weird") = 2 := by
  refine ⟨(resume_routing "ready").1 (Or.inl rfl),
    (resume_routing "stitching_failed").2.1 (Or.inr (Or.inr (Or.inr (Or.inr (by decide))))),
    (resume_routing "weird").2.2 (by decide) (by decide)⟩

/-- C9: a selected file whose MIME type does not start with the video
prefix, or whose size exceeds the 100 MiB limit, gets an error recorded
for its clip and is not uploaded: no file is forwarded to uploadVideo, so
no presigned-URL request and no PUT is issued on that path, and the map
of uploaded videos is unchanged; only a file passing both checks reaches
uploadVideo. -/
theorem upload_file_validation (index : Nat) (f : JsFile) (st : UploadViewState) :
    (strStarts f.ftype "video/" = false →
      handleFileSelect index (some f) =
        FileSelectAction.recordError index "Please select a video file" ∧
      selectStep st index (some f) =
        ({ st with errors := (index, "Please select a video file") :: st.errors }, none)) ∧
    (strStarts f.ftype "video/" = true → f.size > maxUploadBytes →
      handleFileSelect index (some f) =
        FileSelectAction.recordError index "File size must be less than 100MB" ∧
      selectStep st index (some f) =
        ({ st with errors := (index, "File size must be less than 100MB") :: st.errors }, none)) ∧
    (strStarts f.ftype "video/" = true → f.size ≤ maxUploadBytes →
      handleFileSelect index (some f) = FileSelectAction.callUploadVideo f ∧
      selectStep st index (some f) = (st, some f)) := by
  refine ⟨?_, ?_, ?_⟩
  · intro h
    constructor
    · simp [handleFileSelect, h]
    · simp [selectStep, handleFileSelect, h]
  · intro h hgt
    constructor
    · simp [handleFileSelect, h, hgt]
    · simp [selectStep, handleFileSelect, h, hgt]
  · intro h hle
    have hng : ¬(f.size > maxUploadBytes) := not_lt.mpr hle
    constructor
    · simp [handleFileSelect, h, hng]
    · simp [selectStep, handleFileSelect, h, hng]

/-- Witness for C9 at a wrong-type file, an oversized file and a valid
file. -/
theorem upload_file_validation_witness :
    handleFileSelect 0 (some ⟨"image/png", 5, "a.png"⟩) =
      FileSelectAction.recordError 0 "Please select a video file" ∧
    handleFileSelect 1 (some ⟨"video/mp4", 104857601, "b.mp4"⟩) =
      FileSelectAction.recordError 1 "File size must be less than 100MB" ∧
    handleFileSelect 2 (some ⟨"video/mp4", 1000, "c.mp4"⟩) =
      FileSelectAction.callUploadVideo ⟨"video/mp4", 1000, "c.mp4"⟩ := by
  exact ⟨((upload_file_validation 0 ⟨"image/png", 5, "a.png"⟩ ⟨[], []⟩).1 (by decide)).1,
    ((upload_file_validation 1 ⟨"video/mp4", 104857601, "b.mp4"⟩ ⟨[], []⟩).2.1
      (by decide) (by decide)).1,
    ((upload_file_validation 2 ⟨"video/mp4", 1000, "c.mp4"⟩ ⟨[], []⟩).2.2
      (by decide) (by decide)).1⟩

/-- C10: the upload progress computation is total even with no
suggestions: the percentage is the uploaded count over the number of
suggestions times 100 only when the list is nonempty and 0 otherwise, the
empty list renders the no-suggestions fallback, and whenever the uploaded
count does not exceed the number of suggestions the percentage lies
between 0 and 100. -/
theorem progress_total (u : Nat) (l : List Suggestion) :
    (l.length = 0 → progressCalc u l.length = 0 ∧
      step2Render l = Step2View.noSuggestionsFallback) ∧
    (0 < l.length → progressCalc u l.length = (u : ℚ) / (l.length : ℚ) * 100) ∧
    (u ≤ l.length → 0 ≤ progressCalc u l.length ∧ progressCalc u l.length ≤ 100) := by
  refine ⟨?_, ?_, ?_⟩
  · intro h
    constructor
    · simp [progressCalc, h]
    · simp [step2Render, h]
  · intro h
    simp [progressCalc, h]
  · intro hu
    by_cases h : 0 < l.length
    · have hl : (0 : ℚ) < (l.length : ℚ) := by exact_mod_cast h
      constructor
      · simp only [progressCalc, if_pos h]
        positivity
      · simp only [progressCalc, if_pos h]
        have h1 : (u : ℚ) / (l.length : ℚ) ≤ 1 := by
          rw [div_le_one hl]
          exact_mod_cast hu
        nlinarith
    · have h0 : l.length = 0 := Nat.eq_zero_of_not_pos h
      simp [progressCalc, h0]

/-- Witness for C10 at two uploads out of three suggestions and at the
empty suggestion list. -/
theorem progress_total_witness :
    (0 ≤ progressCalc 2 ([⟨1, none⟩, ⟨2, none⟩, ⟨3, none⟩] : List Suggestion).length ∧
      progressCalc 2 ([⟨1, none⟩, ⟨2, none⟩, ⟨3, none⟩] : List Suggestion).length ≤ 100) ∧
    (progressCalc 5 ([] : List Suggestion).length = 0 ∧
      step2Render ([] : List Suggestion) = Step2View.noSuggestionsFallback) := by
  exact ⟨(progress_total 2 [⟨1, none⟩, ⟨2, none⟩, ⟨3, none⟩]).2.2 (by decide),
    (progress_total 5 []).1 rfl⟩

/-- C5: the REST client validates its payloads at both ends of the
suggestion flow: analyzeGitHub rejects when the body-unwrapped analyze
response lacks github_data and otherwise returns the unwrapped data;
getSuggestions rejects when its input lacks github_data, rejects when the
unwrapped response lacks session_id, and otherwise returns the result
object whose sessionId is the session_id of the response, whose
suggestions are the videos of the response defaulting to the empty list,
and whose cached flag defaults to false. -/
theorem client_payload_validation (r : AnalyzeResponse)
    (ad : Option AnalysisPayload) (rs : SuggestResponse) :
    ((unwrapAnalyze r).github_data = none →
      analyzeGitHub r = Except.error "Invalid response: missing github_data") ∧
    (∀ g, (unwrapAnalyze r).github_data = some g → g ≠ "" →
      analyzeGitHub r = Except.ok (unwrapAnalyze r)) ∧
    (ad = none →
      getSuggestions ad rs = Except.error "Invalid analysis data: missing github_data") ∧
    (∀ a, ad = some a → a.github_data = none →
      getSuggestions ad rs = Except.error "Invalid analysis data: missing github_data") ∧
    (∀ a, ad = some a → truthyStr a.github_data = true →
      (unwrapSuggest rs).session_id = none →
      getSuggestions ad rs = Except.error "Invalid response: missing session_id") ∧
    (∀ a sid, ad = some a → truthyStr a.github_data = true →
      (unwrapSuggest rs).session_id = some sid → sid ≠ "" →
      getSuggestions ad rs = Except.ok
        { sessionId := sid
          projectName := (unwrapSuggest rs).project_name
          owner := (unwrapSuggest rs).owner
          githubUrl := (unwrapSuggest rs).github_url
          suggestions := (unwrapSuggest rs).videos.getD []
          totalSuggestions := (unwrapSuggest rs).total_suggestions
          cached := (unwrapSuggest rs).cached.getD false }) := by
  refine ⟨?_, ?_, ?_, ?_, ?_, ?_⟩
  · intro h
    simp [analyzeGitHub, h, truthyStr]
  · intro g hg hne
    simp [analyzeGitHub, hg, truthyStr, hne]
  · intro h
    simp [getSuggestions, h]
  · intro a ha h
    subst ha
    simp [getSuggestions, h, truthyStr]
  · intro a ha ht hsid
    subst ha
    simp [getSuggestions, ht, hsid]
  · intro a sid ha ht hsid hne
    subst ha
    simp [getSuggestions, ht, hsid, hne]

/-- Witness for C5 at concrete responses for each branch. -/
theorem client_payload_validation_witness :
    analyzeGitHub ⟨⟨none⟩, RespBody.absent⟩ =
      Except.error "Invalid response: missing github_data" ∧
    analyzeGitHub ⟨⟨some "gd"⟩, RespBody.absent⟩ = Except.ok ⟨some "gd"⟩ ∧
    getSuggestions none ⟨⟨none, none, none, none, none, none, none⟩, RespBody.absent⟩ =
      Except.error "Invalid analysis data: missing github_data" ∧
    getSuggestions (some ⟨none⟩)
      ⟨⟨none, none, none, none, none, none, none⟩, RespBody.absent⟩ =
      Except.error "Invalid analysis data: missing github_data" ∧
    getSuggestions (some ⟨some "gd"⟩)
      ⟨⟨none, none, none, none, none, none, none⟩, RespBody.absent⟩ =
      Except.error "Invalid response: missing session_id" ∧
    getSuggestions (some ⟨some "gd"⟩)
      ⟨⟨some "sess1", some "proj", none, none, none, none, none⟩, RespBody.absent⟩ =
      Except.ok ⟨"sess1", some "proj", none, none, [], none, false⟩ := by
  refine ⟨?_, ?_, ?_, ?_, ?_, ?_⟩
  · exact (client_payload_validation ⟨⟨none⟩, RespBody.absent⟩ none
      ⟨⟨none, none, none, none, none, none, none⟩, RespBody.absent⟩).1 rfl
  · exact (client_payload_validation ⟨⟨some "gd"⟩, RespBody.absent⟩ none
      ⟨⟨none, none, none, none, none, none, none⟩, RespBody.absent⟩).2.1 "gd" rfl (by decide)
  · exact (client_payload_validation ⟨⟨none⟩, RespBody.absent⟩ none
      ⟨⟨none, none, none, none, none, none, none⟩, RespBody.absent⟩).2.2.1 rfl
  · exact (client_payload_validation ⟨⟨none⟩, RespBody.absent⟩ (some ⟨none⟩)
      ⟨⟨none, none, none, none, none, none, none⟩, RespBody.absent⟩).2.2.2.1 ⟨none⟩ rfl rfl
  · exact (client_payload_validation ⟨⟨none⟩, RespBody.absent⟩ (some ⟨some "gd"⟩)
      ⟨⟨none, none, none, none, none, none, none⟩, RespBody.absent⟩).2.2.2.2.1
      ⟨some "gd"⟩ rfl (by decide) rfl
  · exact (client_payload_validation ⟨⟨none⟩, RespBody.absent⟩ (some ⟨some "gd"⟩)
      ⟨⟨some "sess1", some "proj", none, none, none, none, none⟩, RespBody.absent⟩).2.2.2.2.2
      ⟨some "gd"⟩ "sess1" rfl (by decide) rfl (by decide)

/-- C3: in the final-video view, an in-flight status renders the
processing view; the status complete with a demo url renders the finished
view; a status containing the substring failed renders the failure view;
the poller clears its interval on the status complete and on any status
containing failed, recording the reported failure message; and a poller
whose interval has been cleared issues no further status requests. -/
theorem step3_terminal_behavior (st : Step3State) (resp : SessionStatus)
    (outcomes : List PollOutcome) :
    ((st.status = some "queued" ∨ st.status = some "slides_ready" ∨
        st.status = some "stitching" ∨ st.status = some "stitched" ∨
        st.status = some "optimizing") →
      step3Render st = Step3View.processingView) ∧
    (st.status = some "complete" → truthyResultUrl st.statusData = true →
      step3Render st = Step3View.finishedView) ∧
    (optIncludes st.status "failed" = true → step3Render st = Step3View.failureView) ∧
    (resp.status = some "complete" →
      (step3Poll st (PollOutcome.ok resp)).stopped = true) ∧
    (optIncludes resp.status "failed" = true →
      (step3Poll st (PollOutcome.ok resp)).stopped = true ∧
      (step3Poll st (PollOutcome.ok resp)).errMsg = some (step3ErrText resp)) ∧
    (st.stopped = true → step3Polls st outcomes = 0) := by
  refine ⟨?_, ?_, ?_, ?_, ?_, ?_⟩
  · intro hp
    have h1 : ¬(st.status = some "ready_for_processing" ∨ st.status = some "uploading") := by
      rintro (ha | ha) <;> rcases hp with h | h | h | h | h <;>
        (rw [h] at ha; exact absurd ha (by decide))
    unfold step3Render
    rw [if_neg h1, if_pos hp]
  · intro hc ht
    have h1 : ¬(st.status = some "ready_for_processing" ∨ st.status = some "uploading") := by
      rintro (ha | ha) <;> (rw [hc] at ha; exact absurd ha (by decide))
    have h2 : ¬(st.status = some "queued" ∨ st.status = some "slides_ready" ∨
        st.status = some "stitching" ∨ st.status = some "stitched" ∨
        st.status = some "optimizing") := by
      rintro (ha | ha | ha | ha | ha) <;> (rw [hc] at ha; exact absurd ha (by decide))
    unfold step3Render
    rw [if_neg h1, if_neg h2, if_pos ⟨hc, ht⟩]
  · intro hf
    obtain ⟨s, hs, hinc⟩ : ∃ s, st.status = some s ∧ strIncludes s "failed" = true := by
      cases hst : st.status with
      | none => rw [hst] at hf; exact absurd hf (by decide)
      | some s =>
        refine ⟨s, rfl, ?_⟩
        rw [hst] at hf
        simpa [optIncludes] using hf
    have h1 : ¬(st.status = some "ready_for_processing" ∨ st.status = some "uploading") := by
      rintro (ha | ha) <;>
        (rw [hs] at ha; injection ha with he; subst he; exact absurd hinc (by decide))
    have h2 : ¬(st.status = some "queued" ∨ st.status = some "slides_ready" ∨
        st.status = some "stitching" ∨ st.status = some "stitched" ∨
        st.status = some "optimizing") := by
      rintro (ha | ha | ha | ha | ha) <;>
        (rw [hs] at ha; injection ha with he; subst he; exact absurd hinc (by decide))
    have h3 : ¬(st.status = some "complete" ∧ truthyResultUrl st.statusData = true) := by
      rintro ⟨ha, _⟩
      rw [hs] at ha
      injection ha with he
      subst he
      exact absurd hinc (by decide)
    unfold step3Render
    rw [if_neg h1, if_neg h2, if_neg h3, if_pos (Or.inl hf)]
  · intro hc
    simp [step3Poll, hc]
  · intro hf
    have hne : ¬(resp.status = some "complete") := by
      obtain ⟨s, hs, hinc⟩ : ∃ s, resp.status = some s ∧ strIncludes s "failed" = true := by
        cases hst : resp.status with
        | none => rw [hst] at hf; exact absurd hf (by decide)
        | some s =>
          refine ⟨s, rfl, ?_⟩
          rw [hst] at hf
          simpa [optIncludes] using hf
      rw [hs]
      intro ha
      injection ha with he
      subst he
      exact absurd hinc (by decide)
    constructor <;> simp [step3Poll, hne, hf]
  · intro hstop
    cases outcomes with
    | nil => rfl
    | cons o os => simp [step3Polls, hstop]

/-- Witness for C3 at a processing status, a finished status, a failed
status and a cleared poller. -/
theorem step3_terminal_behavior_witness :
    step3Render ⟨false, some "queued", none, none, 0⟩ = Step3View.processingView ∧
    step3Render ⟨false, some "complete",
      some ⟨some "complete", none, none, none, none, none, none,
        some ⟨some "http://v", none⟩⟩, none, 0⟩ = Step3View.finishedView ∧
    step3Render ⟨false, some "stitching_failed", none, none, 0⟩ = Step3View.failureView ∧
    (step3Poll step3Init (PollOutcome.ok (mkStatus (some "complete")))).stopped = true ∧
    (step3Poll step3Init (PollOutcome.ok (mkStatus (some "stitching_failed")))).errMsg =
      some "Video processing failed" ∧
    step3Polls ⟨true, some "complete", none, none, 0⟩ [PollOutcome.fetchFail] = 0 := by
  refine ⟨?_, ?_, ?_, ?_, ?_, ?_⟩
  · exact (step3_terminal_behavior ⟨false, some "queued", none, none, 0⟩
      (mkStatus none) []).1 (Or.inl rfl)
  · exact (step3_terminal_behavior _ (mkStatus none) []).2.1 rfl (by decide)
  · exact (step3_terminal_behavior ⟨false, some "stitching_failed", none, none, 0⟩
      (mkStatus none) []).2.2.1 (by decide)
  · exact (step3_terminal_behavior step3Init (mkStatus (some "complete")) []).2.2.2.1 rfl
  · exact ((step3_terminal_behavior step3Init (mkStatus (some "stitching_failed")) []).2.2.2.2.1
      (by decide)).2
  · exact (step3_terminal_behavior ⟨true, some "complete", none, none, 0⟩
      (mkStatus none) [PollOutcome.fetchFail]).2.2.2.2.2 rfl

/-- The step chosen on resume is always 2 or 3. -/
theorem resumeStep_cases (o : Option String) : resumeStep o = 2 ∨ resumeStep o = 3 := by
  unfold resumeStep
  split
  · exact Or.inl rfl
  · split
    · exact Or.inr rfl
    · exact Or.inl rfl

/-- Every App transition keeps the step counter in the set 1, 2, 3. -/
theorem appStep_step_mem (s : AppState) (e : AppEvent)
    (h : s.step = 1 ∨ s.step = 2 ∨ s.step = 3) :
    (appStep s e).step = 1 ∨ (appStep s e).step = 2 ∨ (appStep s e).step = 3 := by
  cases e with
  | githubSubmit url res => exact Or.inr (Or.inl rfl)
  | allVideosUploaded => exact Or.inr (Or.inr rfl)
  | startOver => exact Or.inl rfl
  | backToStep1 => exact Or.inl rfl
  | resumeOk st sid =>
    rcases resumeStep_cases st.status with hr | hr
    · exact Or.inr (Or.inl hr)
    · exact Or.inr (Or.inr hr)
  | resumeFail => exact h

/-- Running the App machine from a state whose step is in 1, 2, 3 keeps
the step in 1, 2, 3. -/
theorem appRun_step_mem (evs : List AppEvent) : ∀ s : AppState,
    (s.step = 1 ∨ s.step = 2 ∨ s.step = 3) →
    ((appRun s evs).step = 1 ∨ (appRun s evs).step = 2 ∨ (appRun s evs).step = 3) := by
  induction evs with
  | nil => intro s h; exact h
  | cons e es ih => intro s h; exact ih (appStep s e) (appStep_step_mem s e h)

/-- C4: the app walks the user through exactly three steps and the step
counter is always 1, 2 or 3 along every run from the initial state; a
successful GitHub submission moves step 1 to step 2 and records the
session id in the state and in storage; completing all uploads moves
step 2 to step 3; and starting over returns to step 1 from any step,
clearing the session id, the GitHub URL, the suggestions and the stored
session id. -/
theorem app_three_steps :
    (∀ evs : List AppEvent, (appRun appInit evs).step = 1 ∨
      (appRun appInit evs).step = 2 ∨ (appRun appInit evs).step = 3) ∧
    (∀ (s : AppState) (url : String) (res : SuggestionsResult), s.step = 1 →
      (appStep s (AppEvent.githubSubmit url res)).step = 2 ∧
      (appStep s (AppEvent.githubSubmit url res)).sessionId = some res.sessionId ∧
      (appStep s (AppEvent.githubSubmit url res)).storedSessionId = some res.sessionId) ∧
    (∀ s : AppState, s.step = 2 → (appStep s AppEvent.allVideosUploaded).step = 3) ∧
    (∀ s : AppState, appStep s AppEvent.startOver = ⟨1, none, "", [], none⟩) := by
  refine ⟨?_, ?_, ?_, ?_⟩
  · intro evs
    exact appRun_step_mem evs appInit (Or.inl rfl)
  · intro s url res _
    exact ⟨rfl, rfl, rfl⟩
  · intro s _
    rfl
  · intro s
    rfl

/-- Witness for C4 at a concrete submission, upload completion and
start-over. -/
theorem app_three_steps_witness :
    (appStep appInit (AppEvent.githubSubmit "u" ⟨"sid1", none, none, none, [], none, false⟩)).step = 2 ∧
    (appStep appInit (AppEvent.githubSubmit "u" ⟨"sid1", none, none, none, [], none, false⟩)).sessionId = some "sid1" ∧
    (appStep ⟨2, some "sid1", "u", [], some "sid1"⟩ AppEvent.allVideosUploaded).step = 3 ∧
    appStep ⟨3, some "sid1", "u", [], some "sid1"⟩ AppEvent.startOver = ⟨1, none, "", [], none⟩ := by
  obtain ⟨h1, h2, _⟩ :=
    app_three_steps.2.1 appInit "u" ⟨"sid1", none, none, none, [], none, false⟩ rfl
  exact ⟨h1, h2, app_three_steps.2.2.1 ⟨2, some "sid1", "u", [], some "sid1"⟩ rfl,
    app_three_steps.2.2.2 ⟨3, some "sid1", "u", [], some "sid1"⟩⟩

/-- The upload-view poller state after n ticks: the counter saturates at
15 and the interval is active exactly while fewer than 15 polls have
happened. -/
theorem uploadRun_spec (n : Nat) :
    (uploadRun n).pollCount = min n 15 ∧ (uploadRun n).active = decide (n < 15) := by
  induction n with
  | zero => constructor <;> rfl
  | succ n ih =>
    obtain ⟨h1, h2⟩ := ih
    by_cases hn : n < 15
    · have hmin : min n 15 = n := Nat.min_eq_left (le_of_lt hn)
      have hmin2 : min (n + 1) 15 = n + 1 := Nat.min_eq_left (by omega)
      have hact : (uploadRun n).active = true := by rw [h2]; simp [hn]
      constructor
      · show (uploadPollTick (uploadRun n)).pollCount = _
        simp [uploadPollTick, hact, h1, hmin, hmin2]
      · show (uploadPollTick (uploadRun n)).active = _
        simp [uploadPollTick, hact, h1, hmin]
    · have hge : 15 ≤ n := Nat.le_of_not_lt hn
      have hact : (uploadRun n).active = false := by rw [h2]; simp [hn]
      have hmin : min n 15 = 15 := Nat.min_eq_right hge
      have hmin2 : min (n + 1) 15 = 15 := Nat.min_eq_right (by omega)
      have hdec : decide (n + 1 < 15) = false := by simp; omega
      constructor
      · show (uploadPollTick (uploadRun n)).pollCount = _
        simp [uploadPollTick, hact, h1, hmin, hmin2]
      · show (uploadPollTick (uploadRun n)).active = _
        simp [uploadPollTick, hact, h2, hdec, hn]

/-- The number of polls issued by the upload-view poller in its first n
ticks is the minimum of n and 15. -/
theorem uploadPollsIssued_spec (n : Nat) : uploadPollsIssued n = min n 15 := by
  induction n with
  | zero => rfl
  | succ n ih =>
    show uploadPollsIssued n + _ = _
    rw [ih, (uploadRun_spec n).2]
    by_cases hn : n < 15
    · simp [hn]
      omega
    · simp [hn]
      omega

/-- Running the Step3 poller on n consecutive thrown fetches from an
active state only advances the failure counter, as long as the counter
stays at most 60. -/
theorem step3Run_failList (n : Nat) : ∀ b : Step3State, b.stopped = false →
    n + b.pollingCount ≤ 60 →
    step3Run b (failList n) = { b with pollingCount := b.pollingCount + n } := by
  induction n with
  | zero =>
    intro b _ _
    simp [failList, step3Run]
  | succ n ih =>
    intro b hb hle
    have hcons : failList (n + 1) = PollOutcome.fetchFail :: failList n := by
      simp [failList, List.replicate_succ]
    rw [hcons]
    show (if b.stopped then b else step3Run (step3Poll b PollOutcome.fetchFail) (failList n)) = _
    rw [if_neg (by simp [hb])]
    have hlt : ¬(b.pollingCount ≥ 60) := by omega
    have hstep : step3Poll b PollOutcome.fetchFail =
        { b with pollingCount := b.pollingCount + 1 } := by
      simp [step3Poll, hlt]
    rw [hstep, ih _ (by simp [hb]) (by simp; omega)]
    have harith : b.pollingCount + 1 + n = b.pollingCount + (n + 1) := by omega
    simp [harith]

/-- Successful polls whose status is the in-flight status queued never
clear the Step3 poller interval: only terminal statuses and the failure
counter do. -/
theorem step3Run_queuedList (n : Nat) : ∀ b : Step3State, b.stopped = false →
    (step3Run b (queuedList n)).stopped = false := by
  induction n with
  | zero =>
    intro b hb
    simpa [queuedList, step3Run] using hb
  | succ n ih =>
    intro b hb
    have hcons : queuedList (n + 1) =
        PollOutcome.ok (mkStatus (some "queued")) :: queuedList n := by
      simp [queuedList, List.replicate_succ]
    rw [hcons]
    show (if b.stopped then b
      else step3Run (step3Poll b (PollOutcome.ok (mkStatus (some "queued")))) (queuedList n)).stopped = false
    rw [if_neg (by simp [hb])]
    apply ih
    have h1 : ¬((mkStatus (some "queued")).status = some "complete") := by decide
    have h2 : ¬(optIncludes (mkStatus (some "queued")).status "failed" = true) := by decide
    simp [step3Poll, h1, h2, hb]

/-- C8 counterexample: the claim says the final-video poller stops with a
timeout error after 60 failed attempts, but after 60 consecutive thrown
fetches the poller is still active and no timeout has been reported (it
stops only on the 61st failure, because the stop test reads the counter
before the increment). -/
theorem poll_sixty_counterexample :
    (step3Run step3Init (failList 60)).stopped = false ∧
    (step3Run step3Init (failList 60)).errMsg = none := by
  constructor <;> rfl

/-- C8 amended: the upload-view poller polls every 2000 ms and issues at
most 15 polls regardless of the statuses returned; the final-video poller
polls every 5000 ms, stays active through any 60 failed polls, stops with
the timeout message exactly on the 61st failed poll, and successful polls
with a non-terminal status are not counted, so only the number of failed
polls is bounded. -/
theorem poll_bounds_amended (n : Nat) :
    uploadPollsIssued n ≤ 15 ∧
    uploadPollIntervalMs = 2000 ∧
    step3PollIntervalMs = 5000 ∧
    (n ≤ 60 → (step3Run step3Init (failList n)).stopped = false ∧
      (step3Run step3Init (failList n)).errMsg = none) ∧
    ((step3Run step3Init (failList 61)).stopped = true ∧
      (step3Run step3Init (failList 61)).errMsg =
        some "Timeout waiting for video processing") ∧
    (step3Run step3Init (queuedList n)).stopped = false := by
  refine ⟨?_, rfl, rfl, ?_, ?_, ?_⟩
  · rw [uploadPollsIssued_spec]
    omega
  · intro hle
    have h := step3Run_failList n step3Init rfl (by simp [step3Init]; omega)
    rw [h]
    exact ⟨rfl, rfl⟩
  · constructor <;> rfl
  · exact step3Run_queuedList n step3Init rfl

/-- Witness for C8 at 60 ticks and 60 failures. -/
theorem poll_bounds_amended_witness :
    uploadPollsIssued 60 ≤ 15 ∧
    (step3Run step3Init (failList 60)).stopped = false ∧
    (step3Run step3Init (failList 60)).errMsg = none ∧
    (step3Run step3Init (queuedList 60)).stopped = false := by
  obtain ⟨h1, _, _, h4, _, h6⟩ := poll_bounds_amended 60
  obtain ⟨ha, hb⟩ := h4 (by decide)
  exact ⟨h1, ha, hb, h6⟩

/-- Stripping a literal prefix from that prefix followed by anything
succeeds and returns the remainder. -/
theorem stripPre_append (p s : List Char) : stripPre p (p ++ s) = some s := by
  induction p with
  | nil => rfl
  | cons a as ih => simp [stripPre, ih]

/-- A successful strip of a literal prefix decomposes the input. -/
theorem stripPre_eq_some (p : List Char) : ∀ s r : List Char,
    stripPre p s = some r → s = p ++ r := by
  induction p with
  | nil =>
    intro s r h
    simp [stripPre] at h
    simp [h]
  | cons a as ih =>
    intro s r h
    cases s with
    | nil => exact absurd h (by simp [stripPre])
    | cons c cs =>
      by_cases hac : a = c
      · subst hac
        simp [stripPre] at h
        simp [ih cs r h]
      · simp [stripPre, hac] at h

/-- The optional scheme letter is consumed from a list starting with s. -/
theorem dropOptS_s (t : List Char) : dropOptS ('s' :: t) = t := by
  simp [dropOptS]

/-- The optional scheme letter is not consumed from the separator. -/
theorem dropOptS_sep (t : List Char) :
    dropOptS ("://".data ++ t) = "://".data ++ t := rfl

/-- Inversion for the optional scheme letter. -/
theorem dropOptS_inv (r0 t : List Char) (h : dropOptS r0 = t) :
    r0 = 's' :: t ∨ r0 = t := by
  cases r0 with
  | nil =>
    right
    simpa [dropOptS] using h
  | cons c rest =>
    by_cases hc : c = 's'
    · subst hc
      simp [dropOptS] at h
      left
      rw [h]
    · right
      simpa [dropOptS, hc] using h

/-- The optional www dot is consumed when present. -/
theorem dropOptWww_www (t : List Char) : dropOptWww ("www.".data ++ t) = t := by
  unfold dropOptWww
  rw [stripPre_append]

/-- The optional www dot is not consumed from the host. -/
theorem dropOptWww_git (t : List Char) :
    dropOptWww ("github.com/".data ++ t) = "github.com/".data ++ t := rfl

/-- Inversion for the optional www dot. -/
theorem dropOptWww_inv (r2 t : List Char) (h : dropOptWww r2 = t) :
    r2 = "www.".data ++ t ∨ r2 = t := by
  unfold dropOptWww at h
  split at h
  · rename_i rest hw
    left
    rw [stripPre_eq_some _ _ _ hw, h]
  · right
    exact h

/-- Every character of a longest leading run satisfies the predicate. -/
theorem takeWhile_all_true (p : Char → Bool) (l : List Char) :
    (l.takeWhile p).all p = true := by
  induction l with
  | nil => rfl
  | cons a as ih =>
    by_cases h : p a = true
    · simp [List.takeWhile_cons, h, ih]
    · simp [List.takeWhile_cons, h]

/-- Splitting a run of predicate-satisfying characters followed by a list
whose head fails the predicate recovers exactly the two parts. -/
theorem seg_append (p : Char → Bool) (r : List Char)
    (hr : ∀ c cs, r = c :: cs → p c = false) :
    ∀ l : List Char, l.all p = true →
      (l ++ r).takeWhile p = l ∧ (l ++ r).dropWhile p = r := by
  intro l
  induction l with
  | nil =>
    intro _
    constructor
    · cases r with
      | nil => simp
      | cons c cs => simp [List.takeWhile_cons, hr c cs rfl]
    · cases r with
      | nil => simp
      | cons c cs => simp [List.dropWhile_cons, hr c cs rfl]
  | cons a as ih =>
    intro hl
    obtain ⟨hpa, has⟩ : p a = true ∧ as.all p = true := by
      simpa [List.all_cons] using hl
    obtain ⟨h1, h2⟩ := ih has
    constructor
    · simp [List.takeWhile_cons, hpa, h1]
    · simp [List.dropWhile_cons, hpa, h2]

/-- The tail after the repository segment is the end of the string or a
single slash. -/
theorem repoTail_sound (t : List Char) (h : repoTail t = true) :
    t = [] ∨ t = ['/'] := by
  cases t with
  | nil => exact Or.inl rfl
  | cons c cs =>
    cases cs with
    | nil =>
      right
      have hc : c = '/' := by simpa [repoTail] using h
      rw [hc]
    | cons d ds => exact absurd h (by simp [repoTail])

/-- The owner slash repository parser accepts every well-formed tail. -/
theorem hostTail_complete (o q : Char) (os qs tail5 : List Char)
    (hao : (o :: os).all urlChar = true) (har : (q :: qs).all urlChar = true)
    (ht : repoTail tail5 = true)
    (hh : ∀ c cs, tail5 = c :: cs → urlChar c = false) :
    hostTail ((o :: os) ++ '/' :: ((q :: qs) ++ tail5)) = true := by
  obtain ⟨hA, hB⟩ := seg_append urlChar ('/' :: ((q :: qs) ++ tail5))
    (by intro c cs hcc; injection hcc with h1 _; subst h1; decide) (o :: os) hao
  obtain ⟨hC, hD⟩ := seg_append urlChar tail5 hh (q :: qs) har
  unfold hostTail
  simp only [segSplit, hA, hB, hC, hD]
  simp [ht]

/-- The owner slash repository parser accepts only well-formed tails. -/
theorem hostTail_sound (r4 : List Char) (h : hostTail r4 = true) :
    ∃ (o q : Char) (os qs tail5 : List Char),
      r4 = (o :: os) ++ '/' :: ((q :: qs) ++ tail5) ∧
      (o :: os).all urlChar = true ∧
      (q :: qs).all urlChar = true ∧
      (tail5 = [] ∨ tail5 = ['/']) := by
  unfold hostTail at h
  split at h
  · exact absurd h (by simp)
  · rename_i o os r5 hseg
    split at h
    · exact absurd h (by simp)
    · rename_i q qs rest5 hseg2
      simp only [segSplit, Prod.mk.injEq] at hseg hseg2
      obtain ⟨hA, hB⟩ := hseg
      obtain ⟨hC, hD⟩ := hseg2
      have hr4 : r4 = (o :: os) ++ '/' :: r5 := by
        have hx := List.takeWhile_append_dropWhile urlChar r4
        rw [hA, hB] at hx
        exact hx.symm
      have hr5 : r5 = (q :: qs) ++ rest5 := by
        have hx := List.takeWhile_append_dropWhile urlChar r5
        rw [hC, hD] at hx
        exact hx.symm
      have hallo : (o :: os).all urlChar = true := by
        rw [← hA]
        exact takeWhile_all_true urlChar r4
      have hallq : (q :: qs).all urlChar = true := by
        rw [← hC]
        exact takeWhile_all_true urlChar r5
      refine ⟨o, q, os, qs, rest5, ?_, hallo, hallq, repoTail_sound rest5 h⟩
      rw [hr4, hr5]
  · exact absurd h (by simp)

/-- The scheme part of the parser consumes every well-formed scheme. -/
theorem validate_scheme (sec : Bool) (X : List Char) :
    (stripPre "http".data
        ("http".data ++ (cond sec ['s'] [] ++ ("://".data ++ X)))).bind
      (fun r0 => stripPre "://".data (dropOptS r0)) = some X := by
  cases sec
  · simp [stripPre, dropOptS]
  · simp [stripPre, dropOptS]

/-- The host part of the parser consumes every well-formed host. -/
theorem validate_host (www : Bool) (Y : List Char) :
    stripPre "github.com/".data
      (dropOptWww (cond www "www.".data [] ++ ("github.com/".data ++ Y))) = some Y := by
  cases www
  · simp [dropOptWww, stripPre]
  · simp [dropOptWww, stripPre]

/-- The single-pass parser accepts exactly the URLs matching the
declarative reading of the regular expression of Step1GitHubInput. -/
theorem validate_iff_spec (url : String) :
    validateGitHubUrl url = true ↔ githubUrlSpec url := by
  constructor
  · intro h
    unfold validateGitHubUrl at h
    cases h0 : stripPre "http".data url.data with
    | none => rw [h0] at h; simp at h
    | some r0 =>
      rw [h0, Option.some_bind] at h
      cases h2 : stripPre "://".data (dropOptS r0) with
      | none => rw [h2] at h; simp at h
      | some r2 =>
        rw [h2, Option.some_bind] at h
        cases h4 : stripPre "github.com/".data (dropOptWww r2) with
        | none => rw [h4] at h; simp at h
        | some r4 =>
          rw [h4, Option.elim_some] at h
          obtain ⟨o, q, os, qs, tail5, hr4, hallo, hallq, htl⟩ := hostTail_sound r4 h
          have hu : url.data = "http".data ++ r0 := stripPre_eq_some _ _ _ h0
          have hd : dropOptS r0 = "://".data ++ r2 := stripPre_eq_some _ _ _ h2
          have hw : dropOptWww r2 = "github.com/".data ++ r4 := stripPre_eq_some _ _ _ h4
          rcases dropOptS_inv r0 _ hd with hs | hs <;>
            rcases dropOptWww_inv r2 _ hw with hww | hww <;>
            rcases htl with rfl | rfl
          · exact ⟨true, true, false, o :: os, q :: qs, by simp, by simp, hallo, hallq,
              by simp [hu, hs, hww, hr4, List.append_assoc]⟩
          · exact ⟨true, true, true, o :: os, q :: qs, by simp, by simp, hallo, hallq,
              by simp [hu, hs, hww, hr4, List.append_assoc]⟩
          · exact ⟨true, false, false, o :: os, q :: qs, by simp, by simp, hallo, hallq,
              by simp [hu, hs, hww, hr4, List.append_assoc]⟩
          · exact ⟨true, false, true, o :: os, q :: qs, by simp, by simp, hallo, hallq,
              by simp [hu, hs, hww, hr4, List.append_assoc]⟩
          · exact ⟨false, true, false, o :: os, q :: qs, by simp, by simp, hallo, hallq,
              by simp [hu, hs, hww, hr4, List.append_assoc]⟩
          · exact ⟨false, true, true, o :: os, q :: qs, by simp, by simp, hallo, hallq,
              by simp [hu, hs, hww, hr4, List.append_assoc]⟩
          · exact ⟨false, false, false, o :: os, q :: qs, by simp, by simp, hallo, hallq,
              by simp [hu, hs, hww, hr4, List.append_assoc]⟩
          · exact ⟨false, false, true, o :: os, q :: qs, by simp, by simp, hallo, hallq,
              by simp [hu, hs, hww, hr4, List.append_assoc]⟩
  · rintro ⟨sec, www, slash, owner, repo, hno, hnr, hao, har, heq⟩
    obtain ⟨o, os, rfl⟩ : ∃ o os, owner = o :: os := by
      cases owner with
      | nil => exact absurd rfl hno
      | cons o os => exact ⟨o, os, rfl⟩
    obtain ⟨q, qs, rfl⟩ : ∃ q qs, repo = q :: qs := by
      cases repo with
      | nil => exact absurd rfl hnr
      | cons q qs => exact ⟨q, qs, rfl⟩
    simp only [List.append_assoc] at heq
    unfold validateGitHubUrl
    rw [heq, validate_scheme sec, Option.some_bind, validate_host www, Option.elim_some]
    refine hostTail_complete o q os qs (cond slash ['/'] []) hao har ?_ ?_
    · cases slash <;> rfl
    · cases slash with
      | false =>
        intro c cs hcc
        exact absurd hcc (by simp)
      | true =>
        intro c cs hcc
        injection hcc with h1 _
        rw [← h1]
        decide

/-- C7: the GitHub URL submission handler issues the analyze request only
for inputs accepted by the validator: an empty or whitespace-only input
sets the error asking for a URL with no API call, an input not matching
the anchored GitHub repository pattern sets the error asking for a valid
URL with no API call, and only matching URLs reach analyzeGitHub. -/
theorem github_submit_validation (url : String) :
    (jsTrim url = "" →
      handleGitHubSubmit url = SubmitAction.showError "Please enter a GitHub URL") ∧
    (jsTrim url ≠ "" → ¬ githubUrlSpec url →
      handleGitHubSubmit url =
        SubmitAction.showError "Please enter a valid GitHub repository URL") ∧
    (jsTrim url ≠ "" → githubUrlSpec url →
      handleGitHubSubmit url = SubmitAction.callAnalyze url) := by
  refine ⟨?_, ?_, ?_⟩
  · intro h
    simp [handleGitHubSubmit, h]
  · intro h hns
    have hv : validateGitHubUrl url = false := by
      cases hb : validateGitHubUrl url
      · rfl
      · exact absurd ((validate_iff_spec url).mp hb) hns
    simp [handleGitHubSubmit, h, hv]
  · intro h hs
    have hv : validateGitHubUrl url = true := (validate_iff_spec url).mpr hs
    simp [handleGitHubSubmit, h, hv]

/-- Witness for C7 at the empty input, a non-GitHub URL and a GitHub
repository URL. -/
theorem github_submit_validation_witness :
    handleGitHubSubmit "" = SubmitAction.showError "Please enter a GitHub URL" ∧
    handleGitHubSubmit "https://example.com/a/b" =
      SubmitAction.showError "Please enter a valid GitHub repository URL" ∧
    handleGitHubSubmit "https://github.com/facebook/react" =
      SubmitAction.callAnalyze "https://github.com/facebook/react" := by
  refine ⟨(github_submit_validation "").1 rfl, ?_, ?_⟩
  · refine (github_submit_validation "https://example.com/a/b").2.1 (by decide) ?_
    intro hs
    exact absurd ((validate_iff_spec "https://example.com/a/b").mpr hs) (by decide)
  · exact (github_submit_validation "https://github.com/facebook/react").2.2 (by decide)
      ((validate_iff_spec "https://github.com/facebook/react").mp (by decide))

end DemoBuilder
